import Mathlib

/-!
Verification development for the PerfKitBenchmarker orchestration core
(`perfkitbenchmarker/pkb.py`).

The Python functions `DoProvisionPhase`, `DoPreparePhase`, `DoRunPhase`,
`DoCleanupPhase`, `DoTeardownPhase`, `RunBenchmark`, `RunBenchmarkTask` and
`RunBenchmarks` are shallowly embedded as pure Lean functions.  External
collaborators (the methods of the opaque `BenchmarkSpec` object, the wall
clock, timing-utility toggles) are modelled by a behaviour record
`SpecBehavior` that fixes the outcome of every external call; the embedded
pipeline threads explicit state (status, counters, accumulated samples) and
records a trace of the calls it performs.  The unbounded `while True` loop of
`DoRunPhase` is embedded with explicit fuel; `none` means the fuel was
exhausted before the loop exited.
-/

namespace Pkb

/-- Python exception values.  `exn i` is an ordinary `Exception` (identified
by `i` so that distinct raises can be told apart); `keyboardInterrupt` is
`KeyboardInterrupt`, which is a `BaseException` but not an `Exception` and is
therefore not caught by the `except Exception` clause in `DoRunPhase`;
`valueError` is the `ValueError` raised by unpacking `zip(*[])` in
`RunBenchmarks` when the batch is empty. -/
inductive Err
  | exn (id : Nat)
  | keyboardInterrupt
  | valueError
deriving DecidableEq, Repr

/-- `isinstance(e, KeyboardInterrupt)`. -/
def Err.isKeyboardInterrupt : Err → Bool
  | .keyboardInterrupt => true
  | _ => false

/-- One measurement record (`sample.Sample`): a name, a value, a unit and a
string-keyed metadata mapping.  Only natural-number metadata values are
needed here (the run phase stores the integer `run_number`). -/
structure Sample where
  name : String
  value : Int
  unitLabel : String
  metadata : List (String × Nat)
deriving DecidableEq, Repr

/-- Python dict assignment `m[k] = v`: overwrite the value at an existing
key, otherwise add the pair. -/
def setMeta (m : List (String × Nat)) (k : String) (v : Nat) :
    List (String × Nat) :=
  if m.any (fun p => p.1 == k) then
    m.map (fun p => if p.1 == k then (k, v) else p)
  else m ++ [(k, v)]

/-- Python dict lookup `m.get(k)`. -/
def lookupMeta (m : List (String × Nat)) (k : String) : Option Nat :=
  (m.find? (fun p => p.1 == k)).map (fun p => p.2)

/-- Lifecycle status of a benchmark spec.  The `benchmark_status` module is
not part of the sources under verification; the enum is modelled from the
spec's data model (not-started, running, succeeded, failed).  `pkb.py` itself
only ever assigns `failed` and `succeeded`. -/
inductive Status
  | notStarted
  | running
  | succeeded
  | failed
deriving DecidableEq, Repr

/-- The five run stages (`stages` module). -/
inductive Stage
  | provision
  | prepare
  | run
  | cleanup
  | teardown
deriving DecidableEq, Repr

/-- `stages.STAGES`: the full ordered stage list. -/
def allStages : List Stage :=
  [Stage.provision, Stage.prepare, Stage.run, Stage.cleanup, Stage.teardown]

/-- The slice of the per-spec configuration the pipeline touches:
`spec.config.flags['run_uri']` (absent unless `RunBenchmarkTask` sets it). -/
structure SpecConfig where
  runUriFlag : Option String
deriving DecidableEq, Repr

/-- The fields of the opaque `BenchmarkSpec` object that `pkb.py` reads or
writes: identification, the `always_call_cleanup` policy flag, whether any
VM is a pre-existing static machine (`any(vm.is_static for vm in spec.vms)`),
the lifecycle status and the scoped configuration. -/
structure BenchmarkSpec where
  name : String
  uid : String
  sequence_number : Nat
  total_benchmarks : Nat
  always_call_cleanup : Bool
  hasStaticVm : Bool
  status : Status
  config : SpecConfig
deriving DecidableEq, Repr

/-- The command-line flags read by the embedded functions.  Durations are in
seconds; `run_stage_time` and the clock are naturals, matching the
non-negative flag values the program documents. -/
structure Flags where
  run_stage : List Stage
  run_stage_time : Nat
  run_stage_retries : Nat
  run_processes : Nat
  run_uri : String
  stop_after_benchmark_failure : Bool
  publish_after_run : Bool
  boot_samples : Bool
deriving DecidableEq, Repr

/-- Behaviour of the external collaborators for one pipeline execution: the
outcome of every call the pipeline can make into the opaque spec object
(`none` / `.ok` = the call returns, `some e` / `.error e` = it raises `e`).
Calls that can be made several times in one pipeline execution
(`BenchmarkRun`, `StopBackgroundWorkload`, `BenchmarkCleanup`, `Delete`) are
indexed by their invocation count.  `clock n` is the value `time.time()`
returns at the deadline check ending loop iteration `n`, and `startTime` its
value when `DoRunPhase` computed the deadline.  The timing-utility toggles
and the samples its timers generate are modelled as data because the
`timing_util` module is not part of the sources under verification. -/
structure SpecBehavior where
  constructSpark : Option Err
  constructDpb : Option Err
  constructVMs : Option Err
  provision : Option Err
  specPrepare : Option Err
  benchmarkPrepare : Option Err
  startBackground : Option Err
  run : Nat → Except Err (List Sample)
  bootSamples : List Sample
  stopBackground : Nat → Option Err
  benchmarkCleanup : Nat → Option Err
  delete : Nat → Option Err
  clock : Nat → Nat
  startTime : Nat
  endToEndEnabled : Bool
  runtimeEnabled : Bool
  endToEndSamples : List Sample
  detailedSamples : List Sample

/-- The externally observable calls and events the pipeline emits, in order.
`pickle` is `spec.Pickle()` (the checkpoint write), the `…Event` entries are
`events.…send` notifications, and the remaining entries are calls into the
spec object or the sample collector. -/
inductive Action
  | constructSparkService
  | constructDpbService
  | constructVirtualMachines
  | pickle
  | benchmarkStartEvent
  | provisionCall
  | specPrepareCall
  | benchmarkPrepareCall
  | startBackgroundCall
  | beforeRunPhase
  | benchmarkRunCall (n : Nat)
  | afterRunPhase
  | samplesCreated
  | addSamples (s : List Sample)
  | publishSamples
  | stopBackgroundCall
  | benchmarkCleanupCall
  | deleteCall
  | benchmarkEndEvent
deriving DecidableEq, Repr

/-- `DoProvisionPhase(spec, timer)`: construct services and VMs, `Pickle`,
send `benchmark_start`, then `Provision` inside `try … finally spec.Pickle()`
— so the snapshot is written again whether `Provision` returns or raises. -/
def doProvisionPhase (env : SpecBehavior) : List Action × Except Err Unit :=
  match env.constructSpark with
  | some e => ([Action.constructSparkService], Except.error e)
  | none =>
    match env.constructDpb with
    | some e =>
        ([Action.constructSparkService, Action.constructDpbService],
         Except.error e)
    | none =>
      match env.constructVMs with
      | some e =>
          ([Action.constructSparkService, Action.constructDpbService,
            Action.constructVirtualMachines], Except.error e)
      | none =>
        let pre := [Action.constructSparkService, Action.constructDpbService,
                    Action.constructVirtualMachines, Action.pickle,
                    Action.benchmarkStartEvent, Action.provisionCall]
        match env.provision with
        | some e => (pre ++ [Action.pickle], Except.error e)
        | none => (pre ++ [Action.pickle], Except.ok ())

/-- `DoPreparePhase(spec, timer)`: `spec.Prepare()`, `spec.BenchmarkPrepare
(spec)`, `spec.StartBackgroundWorkload()`; the first raise propagates. -/
def doPreparePhase (env : SpecBehavior) : List Action × Except Err Unit :=
  match env.specPrepare with
  | some e => ([Action.specPrepareCall], Except.error e)
  | none =>
    match env.benchmarkPrepare with
    | some e =>
        ([Action.specPrepareCall, Action.benchmarkPrepareCall], Except.error e)
    | none =>
      match env.startBackground with
      | some e =>
          ([Action.specPrepareCall, Action.benchmarkPrepareCall,
            Action.startBackgroundCall], Except.error e)
      | none =>
          ([Action.specPrepareCall, Action.benchmarkPrepareCall,
            Action.startBackgroundCall], Except.ok ())

/-- Invocation counters for the spec methods that one pipeline execution can
call more than once. -/
structure Counts where
  stopBg : Nat
  cleanup : Nat
  del : Nat
deriving DecidableEq, Repr

/-- `DoCleanupPhase(spec, timer)`: guarded by `spec.always_call_cleanup or
any(vm.is_static …)`; stops the background workload, then runs
`spec.BenchmarkCleanup(spec)`. -/
def doCleanupPhase (env : SpecBehavior) (spec : BenchmarkSpec) (c : Counts) :
    List Action × Counts × Except Err Unit :=
  if spec.always_call_cleanup || spec.hasStaticVm then
    match env.stopBackground c.stopBg with
    | some e =>
        ([Action.stopBackgroundCall], {c with stopBg := c.stopBg + 1},
         Except.error e)
    | none =>
      match env.benchmarkCleanup c.cleanup with
      | some e =>
          ([Action.stopBackgroundCall, Action.benchmarkCleanupCall],
           {c with stopBg := c.stopBg + 1, cleanup := c.cleanup + 1},
           Except.error e)
      | none =>
          ([Action.stopBackgroundCall, Action.benchmarkCleanupCall],
           {c with stopBg := c.stopBg + 1, cleanup := c.cleanup + 1},
           Except.ok ())
  else ([], c, Except.ok ())

/-- `DoTeardownPhase(spec, timer)`: `spec.Delete()` inside the timer. -/
def doTeardownPhase (env : SpecBehavior) (c : Counts) :
    List Action × Counts × Except Err Unit :=
  match env.delete c.del with
  | some e => ([Action.deleteCall], {c with del := c.del + 1}, Except.error e)
  | none => ([Action.deleteCall], {c with del := c.del + 1}, Except.ok ())

/-- The `samples.extend(cluster_boot_benchmark.GetTimeToBoot(spec.vms))`
step inside the run-phase `try`, taken when `FLAGS.boot_samples` is set or
the benchmark is `cluster_boot`. -/
def withBootSamples (flags : Flags) (env : SpecBehavior) (specName : String)
    (samples : List Sample) : List Sample :=
  if flags.boot_samples || specName == "cluster_boot" then
    samples ++ env.bootSamples
  else samples

/-- `if FLAGS.run_stage_time: for sample in samples:
sample.metadata['run_number'] = run_number` — the integer flag is truthy
exactly when it is non-zero. -/
def tagRunNumber (flags : Flags) (runNumber : Nat) (samples : List Sample) :
    List Sample :=
  if flags.run_stage_time ≠ 0 then
    samples.map
      (fun s => {s with metadata := setMeta s.metadata "run_number" runNumber})
  else samples

deriving instance DecidableEq for Except

/-- Result of the `DoRunPhase` loop: the action trace, the per-iteration
`(run_number, samples handed to collector.AddSamples)` pairs, the number of
`spec.BenchmarkRun` invocations performed, and whether the loop returned
normally or re-raised an exception. -/
structure RunLoopOut where
  trace : List Action
  perIter : List (Nat × List Sample)
  invocations : Nat
  result : Except Err Unit
deriving DecidableEq, Repr

/-- The actions one non-raising loop iteration of `DoRunPhase` emits:
`before_phase`, the `BenchmarkRun` call, `after_phase` (from the `finally`),
`samples_created`, `collector.AddSamples`, optionally `PublishSamples`. -/
def iterActs (flags : Flags) (n : Nat) (tagged : List Sample) : List Action :=
  [Action.beforeRunPhase, Action.benchmarkRunCall n, Action.afterRunPhase,
   Action.samplesCreated, Action.addSamples tagged] ++
  (if flags.publish_after_run then [Action.publishSamples] else [])

/-- Prepend one completed, non-raising loop iteration to the outcome of the
rest of the loop. -/
def consIter (flags : Flags) (n : Nat) (tagged : List Sample)
    (o : RunLoopOut) : RunLoopOut :=
  ⟨iterActs flags n tagged ++ o.trace, (n, tagged) :: o.perIter,
   o.invocations + 1, o.result⟩

/-- The `while True` loop of `DoRunPhase`, with explicit fuel.  Each
iteration: send `before_phase`, call `spec.BenchmarkRun(spec)` (extending
with boot samples on success); on an `Exception` increment the
consecutive-failure counter and re-raise once it exceeds
`FLAGS.run_stage_retries` (a `KeyboardInterrupt` is not an `Exception` and
propagates immediately); on success reset the counter; in all cases send
`after_phase` (the `finally`).  On the non-raising paths send
`samples_created`, tag the samples with `run_number` when `run_stage_time`
is truthy, `collector.AddSamples`, optionally `PublishSamples`, increment
`run_number`, and exit when `time.time() > deadline` where
`deadline = startTime + run_stage_time`. -/
def doRunLoop (flags : Flags) (env : SpecBehavior) (specName : String) :
    Nat → Nat → Nat → Option RunLoopOut
  | 0, _, _ => none
  | fuel + 1, runNumber, consecutiveFailures =>
    let attempt : Except Err (Nat × List Sample) :=
      match env.run runNumber with
      | Except.ok s => Except.ok (0, withBootSamples flags env specName s)
      | Except.error e =>
        if e.isKeyboardInterrupt then Except.error e
        else if flags.run_stage_retries < consecutiveFailures + 1 then
          Except.error e
        else Except.ok (consecutiveFailures + 1, [])
    match attempt with
    | Except.error e =>
        some ⟨[Action.beforeRunPhase, Action.benchmarkRunCall runNumber,
               Action.afterRunPhase], [], 1, Except.error e⟩
    | Except.ok (cf, samples) =>
      let tagged := tagRunNumber flags runNumber samples
      if env.startTime + flags.run_stage_time < env.clock runNumber then
        some ⟨iterActs flags runNumber tagged, [(runNumber, tagged)], 1,
              Except.ok ()⟩
      else
        (doRunLoop flags env specName fuel (runNumber + 1) cf).map
          (consIter flags runNumber tagged)

/-- `DoRunPhase(spec, collector, timer)`: the loop starting with
`run_number = 0` and `consecutive_failures = 0`. -/
def doRunPhase (flags : Flags) (env : SpecBehavior) (spec : BenchmarkSpec)
    (fuel : Nat) : Option RunLoopOut :=
  doRunLoop flags env spec.name fuel 0 0

/-- The two timing-sample additions at the end of the `try` block of
`RunBenchmark`: end-to-end timer samples when all stages were requested and
that measurement is enabled, then detailed timer samples when runtime
measurements are enabled. -/
def timingSamples (flags : Flags) (env : SpecBehavior) :
    List Action × List Sample :=
  let p1 : List Action × List Sample :=
    if flags.run_stage = allStages ∧ env.endToEndEnabled then
      ([Action.addSamples env.endToEndSamples], env.endToEndSamples)
    else ([], [])
  if env.runtimeEnabled then
    (p1.1 ++ [Action.addSamples env.detailedSamples],
     p1.2 ++ env.detailedSamples)
  else p1

/-- Outcome of the `try` block of `RunBenchmark`: trace, samples handed to
the collector, per-iteration run-phase data, `BenchmarkRun` invocation
count, the invocation counters after the block, and the block's result. -/
structure TryOut where
  trace : List Action
  collected : List Sample
  perIter : List (Nat × List Sample)
  invocations : Nat
  counts : Counts
  result : Except Err Unit
deriving DecidableEq, Repr

/-- The `try` block of `RunBenchmark`: run each of the five stages exactly
when it is in `FLAGS.run_stage`, in the fixed order provision, prepare, run,
cleanup, teardown, stopping at the first raise; afterwards add the timing
samples.  `none` means the run-phase loop ran out of fuel. -/
def runStagesTry (flags : Flags) (env : SpecBehavior) (spec : BenchmarkSpec)
    (fuel : Nat) : Option TryOut :=
  let c0 : Counts := ⟨0, 0, 0⟩
  match (if Stage.provision ∈ flags.run_stage then doProvisionPhase env
         else ([], Except.ok ())) with
  | (t1, Except.error e) => some ⟨t1, [], [], 0, c0, Except.error e⟩
  | (t1, Except.ok _) =>
    match (if Stage.prepare ∈ flags.run_stage then doPreparePhase env
           else ([], Except.ok ())) with
    | (t2, Except.error e) => some ⟨t1 ++ t2, [], [], 0, c0, Except.error e⟩
    | (t2, Except.ok _) =>
      match (if Stage.run ∈ flags.run_stage then doRunPhase flags env spec fuel
             else some ⟨[], [], 0, Except.ok ()⟩) with
      | none => none
      | some ro =>
        let collectedRun := (ro.perIter.map Prod.snd).flatten
        match ro.result with
        | Except.error e =>
            some ⟨t1 ++ t2 ++ ro.trace, collectedRun, ro.perIter,
                  ro.invocations, c0, Except.error e⟩
        | Except.ok _ =>
          match (if Stage.cleanup ∈ flags.run_stage then
                   doCleanupPhase env spec c0
                 else ([], c0, Except.ok ())) with
          | (t4, c4, Except.error e) =>
              some ⟨t1 ++ t2 ++ ro.trace ++ t4, collectedRun, ro.perIter,
                    ro.invocations, c4, Except.error e⟩
          | (t4, c4, Except.ok _) =>
            match (if Stage.teardown ∈ flags.run_stage then
                     doTeardownPhase env c4
                   else ([], c4, Except.ok ())) with
            | (t5, c5, Except.error e) =>
                some ⟨t1 ++ t2 ++ ro.trace ++ t4 ++ t5, collectedRun,
                      ro.perIter, ro.invocations, c5, Except.error e⟩
            | (t5, c5, Except.ok _) =>
                some ⟨t1 ++ t2 ++ ro.trace ++ t4 ++ t5 ++
                        (timingSamples flags env).1,
                      collectedRun ++ (timingSamples flags env).2,
                      ro.perIter, ro.invocations, c5, Except.ok ()⟩

/-- Result of `RunBenchmark`: the spec as left by the function (its status
mutated in place in the Python), the trace, the samples the collector
accumulated, the `BenchmarkRun` invocation count, the sequence of status
values assigned to `spec.status` in order, whether the `finally` block
invoked `spec.Delete()`, and whether the function returned or (re-)raised. -/
structure RBOut where
  spec : BenchmarkSpec
  trace : List Action
  collected : List Sample
  invocations : Nat
  statusHistory : List Status
  finallyDelete : Bool
  result : Except Err Unit
deriving DecidableEq, Repr

/-- The bare `except:` handler of `RunBenchmark` (lines 528–536): on a raise
`e` from the `try` block, if cleanup was requested and
`spec.always_call_cleanup` is set, call `DoCleanupPhase` — with *no* inner
exception handler, so a raise `e2` inside that cleanup replaces `e` — and
then re-raise whatever is pending. -/
def exceptHandler (flags : Flags) (env : SpecBehavior) (spec1 : BenchmarkSpec)
    (c : Counts) : Except Err Unit → List Action × Counts × Except Err Unit
  | Except.ok _ => ([], c, Except.ok ())
  | Except.error e =>
    if Stage.cleanup ∈ flags.run_stage ∧ spec1.always_call_cleanup then
      match doCleanupPhase env spec1 c with
      | (ct, c2, Except.ok _) => (ct, c2, Except.error e)
      | (ct, c2, Except.error e2) => (ct, c2, Except.error e2)
    else ([], c, Except.error e)

/-- The `finally` block of `RunBenchmark` (lines 537–543): call
`spec.Delete()` when teardown was requested and `abort.IsAborted()` is false
(a raise there replaces any pending exception and skips the rest of the
block), then send `benchmark_end` and `Pickle` the spec.  Returns the
actions, whether `spec.Delete()` was invoked here, and the propagated
outcome. -/
def finallyBlock (flags : Flags) (env : SpecBehavior) (abortFlag : Bool)
    (c : Counts) (pending : Except Err Unit) :
    List Action × Bool × Except Err Unit :=
  if Stage.teardown ∈ flags.run_stage ∧ abortFlag = false then
    match env.delete c.del with
    | some e3 => ([Action.deleteCall], true, Except.error e3)
    | none =>
        ([Action.deleteCall, Action.benchmarkEndEvent, Action.pickle],
         true, pending)
  else ([Action.benchmarkEndEvent, Action.pickle], false, pending)

/-- `RunBenchmark(spec, collector)`.  Sets `spec.status = FAILED` first.
Runs the `try` block, then the `except:` handler if it raised, then the
`finally` block.  Only when nothing propagated does the last line set
`spec.status = SUCCEEDED`.  `abortFlag` is the value `abort.IsAborted()`
returns when the `finally` block runs; the `abort` module is external to
`pkb.py`, which never sets its flag. -/
def runBenchmark (flags : Flags) (env : SpecBehavior) (spec : BenchmarkSpec)
    (fuel : Nat) (abortFlag : Bool) : Option RBOut :=
  let spec1 := {spec with status := Status.failed}
  match runStagesTry flags env spec1 fuel with
  | none => none
  | some t =>
    let h := exceptHandler flags env spec1 t.counts t.result
    let f := finallyBlock flags env abortFlag h.2.1 h.2.2
    some ⟨{spec1 with status :=
             match f.2.2 with
             | Except.ok _ => Status.succeeded
             | Except.error _ => Status.failed},
          t.trace ++ h.1 ++ f.1, t.collected, t.invocations,
          [Status.failed] ++
            (match f.2.2 with
             | Except.ok _ => [Status.succeeded]
             | Except.error _ => []),
          f.2.1, f.2.2⟩

/-- The run-uri adjustment at the top of `RunBenchmarkTask`: when more than
one worker process is configured, the spec's scoped `run_uri` flag is set to
`FLAGS.run_uri + str(spec.sequence_number)`; with a single worker the spec
is left untouched. -/
def effectiveSpec (flags : Flags) (spec : BenchmarkSpec) : BenchmarkSpec :=
  if 1 < flags.run_processes then
    let uri := some (flags.run_uri ++ Nat.repr spec.sequence_number)
    {spec with config := {spec.config with runUriFlag := uri}}
  else spec

/-- The `except BaseException` handler of `RunBenchmarkTask`: on a
`KeyboardInterrupt`, or on any failure when
`FLAGS.stop_after_benchmark_failure` is set, the task sets
`_TEARDOWN_EVENT`; a normal return leaves the event as it was. -/
def taskEvent (flags : Flags) (teardownEvent : Bool) :
    Except Err Unit → Bool
  | Except.ok _ => teardownEvent
  | Except.error e =>
    if e.isKeyboardInterrupt || flags.stop_after_benchmark_failure then true
    else teardownEvent

/-- `RunBenchmarkTask(spec)`.  If the batch-wide `_TEARDOWN_EVENT` is
already set, return `(spec, [])` untouched.  Otherwise, when more than one
worker process is configured, overwrite the spec's scoped `run_uri` flag
with the batch run uri suffixed by the spec's sequence number; then run
`RunBenchmark` with a fresh collector.  Any `BaseException` is caught and
may set `_TEARDOWN_EVENT`.  The `finally` block returns
`(spec, collector.samples)`, so no exception ever propagates to the process
pool.  The returned `Bool` is the `_TEARDOWN_EVENT` state after the
task. -/
def runBenchmarkTask (flags : Flags) (env : SpecBehavior) (fuel : Nat)
    (spec : BenchmarkSpec) (teardownEvent : Bool) (abortFlag : Bool) :
    Option (BenchmarkSpec × List Sample × Bool × List Action) :=
  if teardownEvent then some (spec, [], teardownEvent, [])
  else
    let spec := effectiveSpec flags spec
    match runBenchmark flags env spec fuel abortFlag with
    | none => none
    | some r =>
      some (r.spec, r.collected, taskEvent flags teardownEvent r.result,
            r.trace)

/-- The task executions performed by `background_tasks.RunParallelProcesses`
for one batch, threading the `_TEARDOWN_EVENT` state from task to task; each
task comes with its own external behaviour and its own `abort.IsAborted()`
reading. -/
def runTasks (flags : Flags) (fuel : Nat) :
    List (BenchmarkSpec × SpecBehavior × Bool) → Bool →
    Option (List (BenchmarkSpec × List Sample) × Bool)
  | [], te => some ([], te)
  | (spec, env, ab) :: rest, te =>
    match runBenchmarkTask flags env fuel spec te ab with
    | none => none
    | some (s', smp, te', _) =>
      match runTasks flags fuel rest te' with
      | none => none
      | some (rs, teF) => some ((s', smp) :: rs, teF)

/-- `RunBenchmarks()` reduced to what decides its exit status: run all
tasks, and return `0` when `all(spec.status == benchmark_status.SUCCEEDED
for spec in benchmark_specs)` holds of the returned specs, else `1`.  With
an empty batch, `benchmark_specs, sample_lists = zip(*spec_sample_tuples)`
raises a `ValueError` instead of returning. -/
def runBenchmarks (flags : Flags) (fuel : Nat)
    (tasks : List (BenchmarkSpec × SpecBehavior × Bool)) :
    Option (Except Err Nat) :=
  match runTasks flags fuel tasks false with
  | none => none
  | some (results, _) =>
    match results with
    | [] => some (Except.error Err.valueError)
    | _ :: _ =>
        some (Except.ok
          (if results.all (fun p => p.1.status == Status.succeeded) then 0
           else 1))

/-! ### Concrete instances used by counterexamples and witnesses -/

/-- A behaviour in which every external call succeeds, every `BenchmarkRun`
returns no samples, and the clock has advanced by `n + 1` seconds at the
deadline check ending iteration `n`. -/
def envAllOk : SpecBehavior :=
  { constructSpark := none, constructDpb := none, constructVMs := none,
    provision := none, specPrepare := none, benchmarkPrepare := none,
    startBackground := none,
    run := fun _ => Except.ok [],
    bootSamples := [],
    stopBackground := fun _ => none, benchmarkCleanup := fun _ => none,
    delete := fun _ => none,
    clock := fun n => n + 1, startTime := 0,
    endToEndEnabled := false, runtimeEnabled := false,
    endToEndSamples := [], detailedSamples := [] }

/-- Flags requesting all five stages, single-shot run mode, no retries, a
single worker process. -/
def flagsAllStages : Flags :=
  { run_stage := allStages, run_stage_time := 0, run_stage_retries := 0,
    run_processes := 1, run_uri := "abcd1234",
    stop_after_benchmark_failure := false, publish_after_run := false,
    boot_samples := false }

/-- A sample spec as the batch scheduler would construct it. -/
def specSample : BenchmarkSpec :=
  { name := "iperf", uid := "iperf0", sequence_number := 1,
    total_benchmarks := 2, always_call_cleanup := true, hasStaticVm := false,
    status := Status.notStarted, config := ⟨none⟩ }

/-! ### Decimal representation of sequence numbers

`RunBenchmarkTask` builds the effective run identifier as
`FLAGS.run_uri + str(spec.sequence_number)`; the distinctness arguments
below need that `Nat.repr` is injective, which we prove through a reference
big-endian digit expansion. -/

/-- Reference big-endian decimal digit expansion, structurally easier to
reason about than the fuelled `Nat.toDigitsCore` underlying `Nat.repr`. -/
def decDigits (n : Nat) : List Char :=
  if n < 10 then [Nat.digitChar n]
  else decDigits (n / 10) ++ [Nat.digitChar (n % 10)]
termination_by n
decreasing_by exact Nat.div_lt_self (by omega) (by omega)

/-- Numeric value of a decimal digit character. -/
def digitVal (c : Char) : Nat := c.toNat - 48

/-- Value of a big-endian decimal digit list. -/
def decVal (l : List Char) : Nat :=
  l.foldl (fun a c => a * 10 + digitVal c) 0

theorem digitVal_digitChar {d : Nat} (h : d < 10) :
    digitVal (Nat.digitChar d) = d := by
  interval_cases d <;> decide

theorem decVal_append_singleton (xs : List Char) (c : Char) :
    decVal (xs ++ [c]) = decVal xs * 10 + digitVal c := by
  simp [decVal, List.foldl_append]

theorem decVal_decDigits (n : Nat) : decVal (decDigits n) = n := by
  induction n using Nat.strong_induction_on with
  | _ n ih =>
    by_cases h : n < 10
    · rw [decDigits, if_pos h]
      simp [decVal, digitVal_digitChar h]
    · rw [decDigits, if_neg h, decVal_append_singleton,
          ih (n / 10) (Nat.div_lt_self (by omega) (by omega)),
          digitVal_digitChar (Nat.mod_lt _ (by omega))]
      omega

theorem lt_ten_pow_succ (n : Nat) : n < 10 ^ (n + 1) := by
  induction n with
  | zero => norm_num
  | succ k ih =>
    have h1 : 0 < 10 ^ (k + 1) := Nat.pos_pow_of_pos _ (by norm_num)
    have h2 : 10 ^ (k + 1 + 1) = 10 ^ (k + 1) * 10 := by ring
    omega

theorem toDigitsCore_succ (b fuel n : Nat) (ds : List Char) :
    Nat.toDigitsCore b (fuel + 1) n ds =
      if n / b = 0 then Nat.digitChar (n % b) :: ds
      else Nat.toDigitsCore b fuel (n / b) (Nat.digitChar (n % b) :: ds) :=
  rfl

theorem toDigitsCore_eq_decDigits :
    ∀ (fuel n : Nat) (ds : List Char), n < 10 ^ (fuel + 1) →
      Nat.toDigitsCore 10 (fuel + 1) n ds = decDigits n ++ ds := by
  intro fuel
  induction fuel with
  | zero =>
    intro n ds h
    have h10 : n < 10 := by simpa using h
    have h0 : n / 10 = 0 := by omega
    rw [toDigitsCore_succ, if_pos h0, decDigits, if_pos h10,
        Nat.mod_eq_of_lt h10]
    rfl
  | succ f ih =>
    intro n ds h
    by_cases h0 : n / 10 = 0
    · have h10 : n < 10 := by omega
      rw [toDigitsCore_succ, if_pos h0, decDigits, if_pos h10,
          Nat.mod_eq_of_lt h10]
      rfl
    · have h10 : ¬ n < 10 := by omega
      have hdiv : n / 10 < 10 ^ (f + 1) := by
        have hp : 10 ^ (f + 1 + 1) = 10 ^ (f + 1) * 10 := by ring
        have h' : n < 10 ^ (f + 1) * 10 := by omega
        omega
      rw [toDigitsCore_succ, if_neg h0, ih (n / 10) _ hdiv]
      conv_rhs => rw [decDigits, if_neg h10]
      simp [List.append_assoc]

theorem toDigits_eq_decDigits (n : Nat) : Nat.toDigits 10 n = decDigits n := by
  have h := toDigitsCore_eq_decDigits n n [] (lt_ten_pow_succ n)
  simpa [Nat.toDigits] using h

theorem repr_injective {a b : Nat} (h : Nat.repr a = Nat.repr b) : a = b := by
  have hd : decDigits a = decDigits b := by
    have h2 := congrArg String.data h
    simpa [Nat.repr, toDigits_eq_decDigits, List.asString] using h2
  have h3 := congrArg decVal hd
  simpa [decVal_decDigits] using h3

theorem append_repr_ne (s : String) {a b : Nat} (h : a ≠ b) :
    s ++ Nat.repr a ≠ s ++ Nat.repr b := by
  intro hc
  apply h
  apply repr_injective
  apply String.ext
  have h2 := congrArg String.data hc
  simp only [String.data_append] at h2
  exact List.append_cancel_left h2

/-! ### General lemmas about the embedded pipeline -/

/-- All external operations other than `BenchmarkRun` succeed. -/
def nonRunStagesOk (env : SpecBehavior) : Prop :=
  env.constructSpark = none ∧ env.constructDpb = none ∧
  env.constructVMs = none ∧ env.provision = none ∧
  env.specPrepare = none ∧ env.benchmarkPrepare = none ∧
  env.startBackground = none ∧ (∀ n, env.stopBackground n = none) ∧
  (∀ n, env.benchmarkCleanup n = none) ∧ (∀ n, env.delete n = none)

theorem doProvisionPhase_ok (env : SpecBehavior)
    (h1 : env.constructSpark = none) (h2 : env.constructDpb = none)
    (h3 : env.constructVMs = none) (h4 : env.provision = none) :
    (doProvisionPhase env).2 = Except.ok () := by
  simp [doProvisionPhase, h1, h2, h3, h4]

theorem doPreparePhase_ok (env : SpecBehavior)
    (h5 : env.specPrepare = none) (h6 : env.benchmarkPrepare = none)
    (h7 : env.startBackground = none) :
    (doPreparePhase env).2 = Except.ok () := by
  simp [doPreparePhase, h5, h6, h7]

theorem doCleanupPhase_ok (env : SpecBehavior) (spec : BenchmarkSpec)
    (c : Counts) (h9 : ∀ n, env.stopBackground n = none)
    (h10 : ∀ n, env.benchmarkCleanup n = none) :
    (doCleanupPhase env spec c).2.2 = Except.ok () := by
  by_cases hg : (spec.always_call_cleanup || spec.hasStaticVm) = true
  · simp [doCleanupPhase, hg, h9, h10]
  · simp [doCleanupPhase, hg]

theorem doTeardownPhase_ok (env : SpecBehavior) (c : Counts)
    (hdel : ∀ n, env.delete n = none) :
    (doTeardownPhase env c).2.2 = Except.ok () := by
  simp [doTeardownPhase, hdel]

/-- The handler never turns a raise into a normal return, and passes a
normal return through. -/
theorem exceptHandler_isOk (flags : Flags) (env : SpecBehavior)
    (spec1 : BenchmarkSpec) (c : Counts) (tres : Except Err Unit) :
    (exceptHandler flags env spec1 c tres).2.2.isOk = tres.isOk := by
  cases tres with
  | ok _ => rfl
  | error e =>
    unfold exceptHandler
    by_cases hg : Stage.cleanup ∈ flags.run_stage ∧ spec1.always_call_cleanup
    · rcases hc : doCleanupPhase env spec1 c with ⟨ct, c2, cr⟩
      cases cr <;> simp [hg, hc, Except.isOk, Except.toBool]
    · simp [hg]

/-- When the cleanup operations cannot raise, the handler re-raises exactly
the original exception. -/
theorem exceptHandler_result (flags : Flags) (env : SpecBehavior)
    (spec1 : BenchmarkSpec) (c : Counts) (tres : Except Err Unit)
    (h9 : ∀ n, env.stopBackground n = none)
    (h10 : ∀ n, env.benchmarkCleanup n = none) :
    (exceptHandler flags env spec1 c tres).2.2 = tres := by
  cases tres with
  | ok _ => rfl
  | error e =>
    unfold exceptHandler
    by_cases hg : Stage.cleanup ∈ flags.run_stage ∧ spec1.always_call_cleanup
    · rcases hc : doCleanupPhase env spec1 c with ⟨ct, c2, cr⟩
      have hok := doCleanupPhase_ok env spec1 c h9 h10
      rw [hc] at hok
      cases cr with
      | ok _ => simp [hg, hc]
      | error e2 => exact absurd hok (by simp)
    · simp [hg]

/-- The `finally` block invokes `spec.Delete()` exactly when teardown was
requested and the abort-module flag is unset — independently of whether the
pipeline succeeded or raised. -/
theorem finallyBlock_fdel (flags : Flags) (env : SpecBehavior) (ab : Bool)
    (c : Counts) (pending : Except Err Unit) :
    ((finallyBlock flags env ab c pending).2.1 = true ↔
      (Stage.teardown ∈ flags.run_stage ∧ ab = false)) := by
  unfold finallyBlock
  by_cases hg : Stage.teardown ∈ flags.run_stage ∧ ab = false
  · cases hd : env.delete c.del <;> simp [hg, hd]
  · simp [hg]

/-- When `spec.Delete()` cannot raise, the `finally` block propagates the
pending outcome unchanged. -/
theorem finallyBlock_result (flags : Flags) (env : SpecBehavior) (ab : Bool)
    (c : Counts) (pending : Except Err Unit)
    (hdel : ∀ n, env.delete n = none) :
    (finallyBlock flags env ab c pending).2.2 = pending := by
  unfold finallyBlock
  by_cases hg : Stage.teardown ∈ flags.run_stage ∧ ab = false
  · simp [hg, hdel]
  · simp [hg]

/-- `RunBenchmark` only ever mutates the spec's status field. -/
theorem runBenchmark_spec_shape (flags : Flags) (env : SpecBehavior)
    (spec : BenchmarkSpec) (fuel : Nat) (ab : Bool) (r : RBOut)
    (h : runBenchmark flags env spec fuel ab = some r) :
    r.spec = {spec with status := r.spec.status} := by
  simp only [runBenchmark] at h
  cases hT : runStagesTry flags env {spec with status := Status.failed} fuel
    with
  | none => rw [hT] at h; simp at h
  | some t =>
    rw [hT] at h
    simp only [Option.some.injEq] at h
    rw [← h]

/-- Composition of `runStagesTry` out of a run-phase outcome when every
other stage operation succeeds: the `try` block's result, invocation count
and per-iteration data are those of the run phase. -/
theorem runStagesTry_of_run (flags : Flags) (env : SpecBehavior)
    (spec : BenchmarkSpec) (fuel : Nat) (ro : RunLoopOut)
    (hok : nonRunStagesOk env)
    (hrun : Stage.run ∈ flags.run_stage)
    (hro : doRunPhase flags env spec fuel = some ro) :
    ∃ t : TryOut, runStagesTry flags env spec fuel = some t ∧
      t.result = ro.result ∧ t.invocations = ro.invocations ∧
      t.perIter = ro.perIter := by
  obtain ⟨h1, h2, h3, h4, h5, h6, h7, h8, h9, h10⟩ := hok
  unfold runStagesTry
  by_cases hprov : Stage.provision ∈ flags.run_stage <;>
    by_cases hprep : Stage.prepare ∈ flags.run_stage <;>
      by_cases hcl : Stage.cleanup ∈ flags.run_stage <;>
        by_cases htd : Stage.teardown ∈ flags.run_stage <;>
          rcases hres : ro.result with _ | e <;>
            by_cases hg : (spec.always_call_cleanup || spec.hasStaticVm) =
              true <;>
              simp [hprov, hprep, hcl, htd, hrun, hro, hres, hg,
                    doProvisionPhase, doPreparePhase, doCleanupPhase,
                    doTeardownPhase, h1, h2, h3, h4, h5, h6, h7, h8, h9, h10]

/-- Composition of `RunBenchmark` out of its `try` block when the cleanup
and teardown operations cannot raise: the block's outcome is what the
function propagates, the status becomes SUCCEEDED exactly on a normal
return, and the `finally`-block `Delete` is governed solely by the
teardown-stage request and the abort-module flag. -/
theorem runBenchmark_of_try (flags : Flags) (env : SpecBehavior)
    (spec : BenchmarkSpec) (fuel : Nat) (ab : Bool) (t : TryOut)
    (h9 : ∀ n, env.stopBackground n = none)
    (h10 : ∀ n, env.benchmarkCleanup n = none)
    (hdel : ∀ n, env.delete n = none)
    (ht : runStagesTry flags env {spec with status := Status.failed} fuel =
      some t) :
    ∃ r : RBOut, runBenchmark flags env spec fuel ab = some r ∧
      r.result = t.result ∧ r.invocations = t.invocations ∧
      r.collected = t.collected ∧
      r.spec.status = (match t.result with
                       | Except.ok _ => Status.succeeded
                       | Except.error _ => Status.failed) ∧
      (r.finallyDelete = true ↔
        (Stage.teardown ∈ flags.run_stage ∧ ab = false)) := by
  have hres : (finallyBlock flags env ab
      (exceptHandler flags env {spec with status := Status.failed} t.counts
        t.result).2.1
      (exceptHandler flags env {spec with status := Status.failed} t.counts
        t.result).2.2).2.2 = t.result := by
    rw [finallyBlock_result _ _ _ _ _ hdel,
        exceptHandler_result _ _ _ _ _ h9 h10]
  simp only [runBenchmark]
  rw [ht]
  refine ⟨_, rfl, ?_, rfl, rfl, ?_, ?_⟩
  · exact hres
  · show (match (finallyBlock flags env ab _ _).2.2 with
          | Except.ok _ => Status.succeeded
          | Except.error _ => Status.failed) = _
    rw [hres]
  · exact finallyBlock_fdel flags env ab _ _

theorem tagRunNumber_nil (flags : Flags) (n : Nat) :
    tagRunNumber flags n [] = [] := by
  unfold tagRunNumber
  split <;> rfl

/-- Unfolding lemma: an iteration whose `BenchmarkRun` raise is fatal
(a `KeyboardInterrupt`, or the consecutive-failure counter exceeding the
retry budget) ends the loop by re-raising. -/
theorem doRunLoop_fatal (flags : Flags) (env : SpecBehavior) (name : String)
    (fuel j cf : Nat) (e : Err) (hr : env.run j = Except.error e)
    (hfatal : e.isKeyboardInterrupt = true ∨
      flags.run_stage_retries < cf + 1) :
    doRunLoop flags env name (fuel + 1) j cf =
      some ⟨[Action.beforeRunPhase, Action.benchmarkRunCall j,
             Action.afterRunPhase], [], 1, Except.error e⟩ := by
  simp only [doRunLoop, hr]
  rcases hfatal with hki | hrt
  · rw [if_pos hki]
  · by_cases hki : e.isKeyboardInterrupt = true
    · rw [if_pos hki]
    · rw [if_neg hki, if_pos hrt]

/-- Unfolding lemma: an iteration whose `BenchmarkRun` succeeds resets the
failure counter, and the loop either breaks (deadline passed) or
continues. -/
theorem doRunLoop_step_ok (flags : Flags) (env : SpecBehavior)
    (name : String) (fuel j cf : Nat) (s : List Sample)
    (hr : env.run j = Except.ok s) :
    doRunLoop flags env name (fuel + 1) j cf =
      (if env.startTime + flags.run_stage_time < env.clock j then
         some ⟨iterActs flags j
                 (tagRunNumber flags j (withBootSamples flags env name s)),
               [(j, tagRunNumber flags j (withBootSamples flags env name s))],
               1, Except.ok ()⟩
       else
         (doRunLoop flags env name fuel (j + 1) 0).map
           (consIter flags j
             (tagRunNumber flags j (withBootSamples flags env name s)))) := by
  simp only [doRunLoop, hr]

/-- Unfolding lemma: an iteration whose `BenchmarkRun` raises an ordinary
`Exception` within the retry budget is retried: the counter is incremented,
the empty sample list still flows to the collector, and the loop either
breaks (deadline passed) or continues. -/
theorem doRunLoop_step_retry (flags : Flags) (env : SpecBehavior)
    (name : String) (fuel j cf : Nat) (e : Err)
    (hr : env.run j = Except.error e) (hki : e.isKeyboardInterrupt = false)
    (hrt : ¬ flags.run_stage_retries < cf + 1) :
    doRunLoop flags env name (fuel + 1) j cf =
      (if env.startTime + flags.run_stage_time < env.clock j then
         some ⟨iterActs flags j (tagRunNumber flags j []),
               [(j, tagRunNumber flags j [])], 1, Except.ok ()⟩
       else
         (doRunLoop flags env name fuel (j + 1) (cf + 1)).map
           (consIter flags j (tagRunNumber flags j []))) := by
  simp only [doRunLoop, hr]
  rw [if_neg (by simp [hki]), if_neg hrt]

/-- The run-number keys of the per-iteration collector additions are the
consecutive naturals starting at the loop's starting run number. -/
theorem doRunLoop_perIter_fst (flags : Flags) (env : SpecBehavior)
    (name : String) :
    ∀ (fuel j cf : Nat) (o : RunLoopOut),
      doRunLoop flags env name fuel j cf = some o →
      o.perIter.map Prod.fst = List.range' j o.perIter.length := by
  intro fuel
  induction fuel with
  | zero => intro j cf o h; simp [doRunLoop] at h
  | succ f ih =>
    intro j cf o h
    cases hr : env.run j with
    | ok s =>
      rw [doRunLoop_step_ok flags env name f j cf s hr] at h
      by_cases hcl : env.startTime + flags.run_stage_time < env.clock j
      · rw [if_pos hcl] at h
        simp only [Option.some.injEq] at h
        rw [← h]
        simp
      · rw [if_neg hcl] at h
        cases hrec : doRunLoop flags env name f (j + 1) 0 with
        | none => rw [hrec] at h; simp at h
        | some o' =>
          rw [hrec] at h
          simp only [Option.map_some', Option.some.injEq] at h
          rw [← h]
          simp [consIter, ih (j + 1) 0 o' hrec, List.range'_succ]
    | error e =>
      by_cases hki : e.isKeyboardInterrupt = true
      · rw [doRunLoop_fatal flags env name f j cf e hr (Or.inl hki)] at h
        simp only [Option.some.injEq] at h
        rw [← h]
        simp
      · by_cases hrt : flags.run_stage_retries < cf + 1
        · rw [doRunLoop_fatal flags env name f j cf e hr (Or.inr hrt)] at h
          simp only [Option.some.injEq] at h
          rw [← h]
          simp
        · rw [doRunLoop_step_retry flags env name f j cf e hr
                (by simpa using hki) hrt] at h
          by_cases hcl : env.startTime + flags.run_stage_time < env.clock j
          · rw [if_pos hcl] at h
            simp only [Option.some.injEq] at h
            rw [← h]
            simp
          · rw [if_neg hcl] at h
            cases hrec : doRunLoop flags env name f (j + 1) (cf + 1) with
            | none => rw [hrec] at h; simp at h
            | some o' =>
              rw [hrec] at h
              simp only [Option.map_some', Option.some.injEq] at h
              rw [← h]
              simp [consIter, ih (j + 1) (cf + 1) o' hrec, List.range'_succ]

theorem lookupMeta_mapped (k : String) (v : Nat) :
    ∀ m : List (String × Nat), (m.any fun p => p.1 == k) = true →
      lookupMeta (m.map fun p => if p.1 == k then (k, v) else p) k =
        some v := by
  intro m
  induction m with
  | nil => intro hany; simp at hany
  | cons a as ih =>
    intro hany
    rw [List.map_cons]
    by_cases ha : (a.1 == k) = true
    · rw [if_pos ha, lookupMeta, List.find?_cons_of_pos _ (by simp)]
      rfl
    · rw [if_neg ha, lookupMeta, List.find?_cons_of_neg _ (by simpa using ha)]
      have has : (as.any fun p => p.1 == k) = true := by
        rcases List.any_eq_true.mp hany with ⟨p, hp, hpk⟩
        rcases List.mem_cons.mp hp with rfl | hp
        · exact absurd hpk ha
        · exact List.any_eq_true.mpr ⟨p, hp, hpk⟩
      rw [lookupMeta] at ih
      exact ih has

theorem lookupMeta_appended (k : String) (v : Nat) :
    ∀ m : List (String × Nat), (m.any fun p => p.1 == k) = false →
      lookupMeta (m ++ [(k, v)]) k = some v := by
  intro m
  induction m with
  | nil =>
    intro _
    rw [List.nil_append, lookupMeta, List.find?_cons_of_pos _ (by simp)]
    rfl
  | cons a as ih =>
    intro hany
    rw [List.any_cons, Bool.or_eq_false_iff] at hany
    rw [List.cons_append, lookupMeta,
        List.find?_cons_of_neg _ (by simp [hany.1])]
    rw [lookupMeta] at ih
    exact ih hany.2

theorem lookupMeta_setMeta (m : List (String × Nat)) (k : String) (v : Nat) :
    lookupMeta (setMeta m k v) k = some v := by
  unfold setMeta
  by_cases hm : (m.any fun p => p.1 == k) = true
  · rw [if_pos hm]
    exact lookupMeta_mapped k v m hm
  · rw [if_neg hm]
    rw [Bool.not_eq_true] at hm
    exact lookupMeta_appended k v m hm

/-- Every sample the tagging step touches carries the iteration's run
number under the `run_number` metadata key. -/
theorem tagRunNumber_lookup (flags : Flags) (n : Nat) (samples : List Sample)
    (hT : flags.run_stage_time ≠ 0) :
    ∀ s ∈ tagRunNumber flags n samples,
      lookupMeta s.metadata "run_number" = some n := by
  intro s hs
  rw [tagRunNumber, if_pos hT] at hs
  obtain ⟨s0, _, rfl⟩ := List.mem_map.mp hs
  exact lookupMeta_setMeta s0.metadata "run_number" n

/-- In time-boxed mode every collected sample is tagged with its
iteration's run number. -/
theorem doRunLoop_tagged (flags : Flags) (env : SpecBehavior) (name : String)
    (hT : flags.run_stage_time ≠ 0) :
    ∀ (fuel j cf : Nat) (o : RunLoopOut),
      doRunLoop flags env name fuel j cf = some o →
      ∀ p ∈ o.perIter, ∀ s ∈ p.2,
        lookupMeta s.metadata "run_number" = some p.1 := by
  intro fuel
  induction fuel with
  | zero => intro j cf o h; simp [doRunLoop] at h
  | succ f ih =>
    intro j cf o h
    cases hr : env.run j with
    | ok s =>
      rw [doRunLoop_step_ok flags env name f j cf s hr] at h
      by_cases hcl : env.startTime + flags.run_stage_time < env.clock j
      · rw [if_pos hcl] at h
        simp only [Option.some.injEq] at h
        rw [← h]
        intro p hp
        simp only [List.mem_singleton] at hp
        rw [hp]
        exact tagRunNumber_lookup flags j _ hT
      · rw [if_neg hcl] at h
        cases hrec : doRunLoop flags env name f (j + 1) 0 with
        | none => rw [hrec] at h; simp at h
        | some o' =>
          rw [hrec] at h
          simp only [Option.map_some', Option.some.injEq] at h
          rw [← h]
          intro p hp
          rcases List.mem_cons.mp hp with hp | hp
          · rw [hp]
            exact tagRunNumber_lookup flags j _ hT
          · exact ih (j + 1) 0 o' hrec p hp
    | error e =>
      by_cases hki : e.isKeyboardInterrupt = true
      · rw [doRunLoop_fatal flags env name f j cf e hr (Or.inl hki)] at h
        simp only [Option.some.injEq] at h
        rw [← h]
        intro p hp
        simp at hp
      · by_cases hrt : flags.run_stage_retries < cf + 1
        · rw [doRunLoop_fatal flags env name f j cf e hr (Or.inr hrt)] at h
          simp only [Option.some.injEq] at h
          rw [← h]
          intro p hp
          simp at hp
        · rw [doRunLoop_step_retry flags env name f j cf e hr
                (by simpa using hki) hrt] at h
          by_cases hcl : env.startTime + flags.run_stage_time < env.clock j
          · rw [if_pos hcl] at h
            simp only [Option.some.injEq] at h
            rw [← h]
            intro p hp
            simp only [List.mem_singleton] at hp
            rw [hp]
            exact tagRunNumber_lookup flags j _ hT
          · rw [if_neg hcl] at h
            cases hrec : doRunLoop flags env name f (j + 1) (cf + 1) with
            | none => rw [hrec] at h; simp at h
            | some o' =>
              rw [hrec] at h
              simp only [Option.map_some', Option.some.injEq] at h
              rw [← h]
              intro p hp
              rcases List.mem_cons.mp hp with hp | hp
              · rw [hp]
                exact tagRunNumber_lookup flags j _ hT
              · exact ih (j + 1) (cf + 1) o' hrec p hp

/-- In single-shot mode every collected sample list is exactly what the
iteration's `BenchmarkRun` produced (plus boot samples), untouched by any
tagging. -/
theorem doRunLoop_untagged (flags : Flags) (env : SpecBehavior)
    (name : String) (hT : flags.run_stage_time = 0) :
    ∀ (fuel j cf : Nat) (o : RunLoopOut),
      doRunLoop flags env name fuel j cf = some o →
      ∀ p ∈ o.perIter,
        p.2 = (match env.run p.1 with
               | Except.ok s => withBootSamples flags env name s
               | Except.error _ => []) := by
  have htag : ∀ (n : Nat) (l : List Sample), tagRunNumber flags n l = l := by
    intro n l
    rw [tagRunNumber, if_neg (by simp [hT])]
  intro fuel
  induction fuel with
  | zero => intro j cf o h; simp [doRunLoop] at h
  | succ f ih =>
    intro j cf o h
    cases hr : env.run j with
    | ok s =>
      rw [doRunLoop_step_ok flags env name f j cf s hr] at h
      by_cases hcl : env.startTime + flags.run_stage_time < env.clock j
      · rw [if_pos hcl] at h
        simp only [Option.some.injEq] at h
        rw [← h]
        intro p hp
        simp only [List.mem_singleton] at hp
        rw [hp, htag, hr]
      · rw [if_neg hcl] at h
        cases hrec : doRunLoop flags env name f (j + 1) 0 with
        | none => rw [hrec] at h; simp at h
        | some o' =>
          rw [hrec] at h
          simp only [Option.map_some', Option.some.injEq] at h
          rw [← h]
          intro p hp
          rcases List.mem_cons.mp hp with hp | hp
          · rw [hp, htag, hr]
          · exact ih (j + 1) 0 o' hrec p hp
    | error e =>
      by_cases hki : e.isKeyboardInterrupt = true
      · rw [doRunLoop_fatal flags env name f j cf e hr (Or.inl hki)] at h
        simp only [Option.some.injEq] at h
        rw [← h]
        intro p hp
        simp at hp
      · by_cases hrt : flags.run_stage_retries < cf + 1
        · rw [doRunLoop_fatal flags env name f j cf e hr (Or.inr hrt)] at h
          simp only [Option.some.injEq] at h
          rw [← h]
          intro p hp
          simp at hp
        · rw [doRunLoop_step_retry flags env name f j cf e hr
                (by simpa using hki) hrt] at h
          by_cases hcl : env.startTime + flags.run_stage_time < env.clock j
          · rw [if_pos hcl] at h
            simp only [Option.some.injEq] at h
            rw [← h]
            intro p hp
            simp only [List.mem_singleton] at hp
            rw [hp, htag, hr]
          · rw [if_neg hcl] at h
            cases hrec : doRunLoop flags env name f (j + 1) (cf + 1) with
            | none => rw [hrec] at h; simp at h
            | some o' =>
              rw [hrec] at h
              simp only [Option.map_some', Option.some.injEq] at h
              rw [← h]
              intro p hp
              rcases List.mem_cons.mp hp with hp | hp
              · rw [hp, htag, hr]
              · exact ih (j + 1) (cf + 1) o' hrec p hp

/-- Running the loop through `k` consecutive ordinary failures, all within
the retry budget and all before the deadline, prepends `k` recovered
iterations (each contributing an empty sample list to the collector and one
`BenchmarkRun` invocation) and continues with the failure counter raised by
`k`. -/
theorem doRunLoop_fail_shift (flags : Flags) (env : SpecBehavior)
    (name : String) :
    ∀ (k fuel j c : Nat),
      (∀ i, i < k → ∃ id, env.run (j + i) = Except.error (Err.exn id)) →
      (∀ i, i < k → c + i + 1 ≤ flags.run_stage_retries) →
      (∀ i, i < k →
        env.clock (j + i) ≤ env.startTime + flags.run_stage_time) →
      doRunLoop flags env name (fuel + k) j c =
        (doRunLoop flags env name fuel (j + k) (c + k)).map (fun o =>
          ⟨((List.range' j k).map fun n => iterActs flags n []).flatten ++
             o.trace,
           ((List.range' j k).map fun n => (n, ([] : List Sample))) ++
             o.perIter,
           o.invocations + k, o.result⟩) := by
  intro k
  induction k with
  | zero =>
    intro fuel j c _ _ _
    simp only [Nat.add_zero, List.range'_zero, List.map_nil,
               List.flatten_nil, List.nil_append]
    cases hx : doRunLoop flags env name fuel j c with
    | none => rfl
    | some o => cases o; rfl
  | succ k ih =>
    intro fuel j c hrun hcf hclock
    obtain ⟨id, hr⟩ := hrun 0 (Nat.succ_pos k)
    have hr' : env.run j = Except.error (Err.exn id) := by
      rwa [Nat.add_zero] at hr
    have hrt : ¬ flags.run_stage_retries < c + 1 := by
      have := hcf 0 (Nat.succ_pos k)
      omega
    have hcl : ¬ env.startTime + flags.run_stage_time < env.clock j := by
      have := hclock 0 (Nat.succ_pos k)
      rw [Nat.add_zero] at this
      omega
    rw [show fuel + (k + 1) = (fuel + k) + 1 from rfl,
        doRunLoop_step_retry flags env name (fuel + k) j c (Err.exn id)
          hr' rfl hrt,
        if_neg hcl, tagRunNumber_nil,
        ih fuel (j + 1) (c + 1)
          (fun i hi => by
            obtain ⟨id2, h2⟩ := hrun (i + 1) (by omega)
            exact ⟨id2, by rwa [show j + (i + 1) = j + 1 + i from by omega]
              at h2⟩)
          (fun i hi => by
            have := hcf (i + 1) (by omega)
            omega)
          (fun i hi => by
            have := hclock (i + 1) (by omega)
            rwa [show j + (i + 1) = j + 1 + i from by omega] at this),
        show j + 1 + k = j + (k + 1) from by omega,
        show c + 1 + k = c + (k + 1) from by omega,
        Option.map_map]
    cases hx : doRunLoop flags env name fuel (j + (k + 1)) (c + (k + 1)) with
    | none => rfl
    | some o =>
      simp only [Option.map_some', Option.some.injEq, Function.comp]
      rw [List.range'_succ]
      simp [consIter, List.append_assoc]
      omega

/-- `RunBenchmarkTask` leaves the returned spec's configuration exactly as
the run-uri adjustment set it: the pipeline itself only mutates status. -/
theorem runBenchmarkTask_config (flags : Flags) (env : SpecBehavior)
    (fuel : Nat) (spec : BenchmarkSpec) (ab : Bool)
    (r : BenchmarkSpec × List Sample × Bool × List Action)
    (h : runBenchmarkTask flags env fuel spec false ab = some r) :
    r.1.config = (effectiveSpec flags spec).config := by
  simp only [runBenchmarkTask] at h
  rw [if_neg (by simp)] at h
  cases hb : runBenchmark flags env (effectiveSpec flags spec) fuel ab with
  | none => rw [hb] at h; simp at h
  | some rb =>
    rw [hb] at h
    simp only [Option.some.injEq] at h
    have hs := runBenchmark_spec_shape flags env (effectiveSpec flags spec)
      fuel ab rb hb
    rw [← h]
    show rb.spec.config = _
    rw [hs]

/-! ### Concrete instances for counterexamples and witnesses -/

/-- Behaviour whose every `BenchmarkRun` raises `KeyboardInterrupt`
(an operator interrupt), with everything else succeeding. -/
def envKIRun : SpecBehavior :=
  {envAllOk with run := fun _ => Except.error Err.keyboardInterrupt}

/-- A second spec in the same batch. -/
def specSample2 : BenchmarkSpec :=
  {specSample with sequence_number := 2, uid := "iperf1"}

/-- Flags configuring two worker processes. -/
def flagsTwoProcs : Flags := {flagsAllStages with run_processes := 2}

/-- The outcome of the all-succeeding pipeline run, extracted for use in
witnesses. -/
def rbAllOk : RBOut :=
  (runBenchmark flagsAllStages envAllOk specSample 2 false).getD
    ⟨specSample, [], [], 0, [], false, Except.ok ()⟩

/-! ### Claims -/

/-- C4: if the batch-wide teardown event is already set when
`RunBenchmarkTask` starts, the task returns immediately with that spec
unmodified (status and configuration untouched, in particular not marked
failed) paired with an empty sample list; the empty action trace shows that
none of the five stages executed. -/
theorem c4_skip_when_event_set (flags : Flags) (env : SpecBehavior)
    (fuel : Nat) (spec : BenchmarkSpec) (abortFlag : Bool) :
    runBenchmarkTask flags env fuel spec true abortFlag =
      some (spec, [], true, []) := rfl

/-- C9: with the construction steps succeeding, `DoProvisionPhase` pickles
the spec before `Provision` touches any external resource, sends the
benchmark-start notification between the two, and pickles again after
`Provision` returns — on the success path and on the failure path alike
(the raise, if any, propagates only after the second pickle). -/
theorem c9_provision_checkpoints (env : SpecBehavior)
    (h1 : env.constructSpark = none) (h2 : env.constructDpb = none)
    (h3 : env.constructVMs = none) :
    doProvisionPhase env =
      ([Action.constructSparkService, Action.constructDpbService,
        Action.constructVirtualMachines, Action.pickle,
        Action.benchmarkStartEvent, Action.provisionCall, Action.pickle],
       match env.provision with
       | some e => Except.error e
       | none => Except.ok ()) := by
  unfold doProvisionPhase
  rw [h1, h2, h3]
  cases env.provision <;> rfl

/-- C9 witness: the provision phase of the all-succeeding behaviour. -/
theorem c9_provision_checkpoints_witness :
    doProvisionPhase envAllOk =
      ([Action.constructSparkService, Action.constructDpbService,
        Action.constructVirtualMachines, Action.pickle,
        Action.benchmarkStartEvent, Action.provisionCall, Action.pickle],
       Except.ok ()) :=
  c9_provision_checkpoints envAllOk rfl rfl rfl

/-- C2 counterexample: with every external call succeeding, `RunBenchmark`
assigns FAILED at entry and SUCCEEDED at exit: the spec's status moves out
of `failed` back to `succeeded`, refuting the claim that no pipeline
operation ever moves a status from failed to any other value (and no
`running` assignment occurs at all). -/
theorem c2_counterexample :
    (runBenchmark flagsAllStages envAllOk specSample 2 false).map
      (fun r => r.statusHistory) =
      some [Status.failed, Status.succeeded] := rfl

/-- C2 amended: `RunBenchmark` pessimistically assigns FAILED on entry and
reassigns SUCCEEDED at the very end exactly when the whole pipeline
(all requested stages, the cleanup attempt and the finally block) completed
without an unrecovered error; when anything propagated, the status stays
FAILED.  So the only status transition the pipeline performs is
failed → succeeded on full success, and a spec is marked succeeded only if
every requested stage completed without an unrecovered error. -/
theorem c2_status_assignments (flags : Flags) (env : SpecBehavior)
    (spec : BenchmarkSpec) (fuel : Nat) (ab : Bool) (r : RBOut)
    (h : runBenchmark flags env spec fuel ab = some r) :
    r.statusHistory = [Status.failed] ++
        (if r.result.isOk then [Status.succeeded] else []) ∧
      r.spec.status =
        (if r.result.isOk then Status.succeeded else Status.failed) := by
  simp only [runBenchmark] at h
  cases hT : runStagesTry flags env {spec with status := Status.failed} fuel
    with
  | none => rw [hT] at h; simp at h
  | some t =>
    rw [hT] at h
    simp only [Option.some.injEq] at h
    rw [← h]
    cases hf : (finallyBlock flags env ab
        (exceptHandler flags env {spec with status := Status.failed}
          t.counts t.result).2.1
        (exceptHandler flags env {spec with status := Status.failed}
          t.counts t.result).2.2).2.2 <;>
      simp [hf, Except.isOk, Except.toBool]

/-- C2 witness: the amended statement at the all-succeeding behaviour. -/
theorem c2_status_assignments_witness :
    rbAllOk.statusHistory = [Status.failed] ++
        (if rbAllOk.result.isOk then [Status.succeeded] else []) ∧
      rbAllOk.spec.status =
        (if rbAllOk.result.isOk then Status.succeeded else Status.failed) :=
  c2_status_assignments flagsAllStages envAllOk specSample 2 false rbAllOk rfl

/-- Flags for the C3 scenario: only prepare and cleanup requested. -/
def c3flags : Flags :=
  {flagsAllStages with run_stage := [Stage.prepare, Stage.cleanup]}

/-- Behaviour for the C3 scenario: `Prepare` raises exception 1 and
`BenchmarkCleanup` raises exception 2. -/
def c3env : SpecBehavior :=
  {envAllOk with specPrepare := some (Err.exn 1),
                 benchmarkCleanup := fun _ => some (Err.exn 2)}

/-- C3 counterexample: the prepare stage raises exception 1; the cleanup
attempt made by the except-handler raises exception 2; `RunBenchmark`
propagates exception 2.  The cleanup failure is not captured: it suppresses
and replaces the original error, which is lost. -/
theorem c3_counterexample :
    (runBenchmark c3flags c3env specSample 1 false).map
      (fun r => r.result) = some (Except.error (Err.exn 2)) := rfl

/-- C3 amended: when a stage raises `e`, cleanup is among the requested
stages and the spec demands unconditional cleanup, `RunBenchmark` runs the
cleanup attempt and then re-raises the original `e` only if that attempt
returns normally; if the cleanup attempt itself raises `e2`, then `e2` —
not the original error — is what propagates to the caller (teardown not
requested here, so the finally block leaves the outcome unchanged). -/
theorem c3_cleanup_then_reraise (flags : Flags) (env : SpecBehavior)
    (spec : BenchmarkSpec) (fuel : Nat) (ab : Bool) (t : TryOut) (e : Err)
    (ht : runStagesTry flags env {spec with status := Status.failed} fuel =
      some t)
    (hres : t.result = Except.error e)
    (hcl : Stage.cleanup ∈ flags.run_stage)
    (hac : spec.always_call_cleanup = true)
    (htd : Stage.teardown ∉ flags.run_stage) :
    ∃ r : RBOut, runBenchmark flags env spec fuel ab = some r ∧
      r.result =
        (match (doCleanupPhase env {spec with status := Status.failed}
            t.counts).2.2 with
         | Except.ok _ => Except.error e
         | Except.error e2 => Except.error e2) := by
  simp only [runBenchmark]
  rw [ht]
  refine ⟨_, rfl, ?_⟩
  show (finallyBlock flags env ab
      (exceptHandler flags env {spec with status := Status.failed}
        t.counts t.result).2.1
      (exceptHandler flags env {spec with status := Status.failed}
        t.counts t.result).2.2).2.2 = _
  rw [finallyBlock, if_neg (fun hcon => htd hcon.1)]
  simp only [hres, exceptHandler]
  rw [if_pos ⟨hcl, hac⟩]
  rcases hc : doCleanupPhase env {spec with status := Status.failed} t.counts
    with ⟨ct, c2, cr⟩
  cases cr <;> simp [hc]

/-- The `try`-block outcome of the C3 scenario, extracted for the
witness. -/
def c3try : TryOut :=
  (runStagesTry c3flags c3env {specSample with status := Status.failed}
    1).getD ⟨[], [], [], 0, ⟨0, 0, 0⟩, Except.ok ()⟩

/-- C3 witness: the amended statement at the C3 scenario, where the cleanup
attempt raises exception 2 after the original exception 1. -/
theorem c3_cleanup_then_reraise_witness :
    ∃ r : RBOut, runBenchmark c3flags c3env specSample 1 false = some r ∧
      r.result =
        (match (doCleanupPhase c3env
            {specSample with status := Status.failed} c3try.counts).2.2 with
         | Except.ok _ => Except.error (Err.exn 1)
         | Except.error e2 => Except.error e2) :=
  c3_cleanup_then_reraise c3flags c3env specSample 1 false c3try
    (Err.exn 1) rfl rfl (by decide) rfl (by decide)

/-- C5 counterexample: an operator interrupt (KeyboardInterrupt) during the
run phase makes the worker set the batch-wide stop flag — the returned
event bit is `true` — yet the very same task's finally block still invoked
`spec.Delete()` (a `deleteCall` appears in its trace): teardown suppression
reads the separate abort-module flag, which nothing in `pkb.py` ever sets,
not the flag the worker sets.  Under the claim's single-flag reading, the
abort signalled by this interrupt would have suppressed the teardown. -/
theorem c5_counterexample :
    (runBenchmarkTask flagsAllStages envKIRun 3 specSample false false).map
      (fun p => (p.2.2.1, p.2.2.2.contains Action.deleteCall)) =
      some (true, true) := rfl

/-- C5 amended: two distinct signals exist.  The `_TEARDOWN_EVENT` that a
worker sets on interrupt or stop-on-first-failure only prevents
not-yet-started specs from beginning; suppression of the finally-block
teardown is governed solely by the abort-module flag (`abort.IsAborted()`),
which `pkb.py` itself never sets: whenever that flag is unset and teardown
was requested, `spec.Delete()` is invoked in the finally block regardless
of whether the pipeline succeeded or raised, and whenever it is set,
`spec.Delete()` is not invoked there. -/
theorem c5_teardown_suppression (flags : Flags) (env : SpecBehavior)
    (spec : BenchmarkSpec) (fuel : Nat) (ab : Bool) (r : RBOut)
    (h : runBenchmark flags env spec fuel ab = some r) :
    (r.finallyDelete = true ↔
      (Stage.teardown ∈ flags.run_stage ∧ ab = false)) := by
  simp only [runBenchmark] at h
  cases hT : runStagesTry flags env {spec with status := Status.failed} fuel
    with
  | none => rw [hT] at h; simp at h
  | some t =>
    rw [hT] at h
    simp only [Option.some.injEq] at h
    rw [← h]
    exact finallyBlock_fdel flags env ab _ _

/-- C5 witness: the amended statement at the all-succeeding behaviour with
teardown requested and the abort-module flag unset. -/
theorem c5_teardown_suppression_witness :
    (rbAllOk.finallyDelete = true ↔
      (Stage.teardown ∈ flagsAllStages.run_stage ∧ false = false)) :=
  c5_teardown_suppression flagsAllStages envAllOk specSample 2 false
    rbAllOk rfl

/-- C7: when more than one worker process is configured, each started
task sets its spec's effective run identifier to the batch run uri with the
spec's sequence number appended, so two specs with different sequence
numbers end with distinct identifiers differing only in that suffix; with a
single worker process the spec's configuration is left unmodified. -/
theorem c7_run_uri_suffix (flags : Flags) (env1 env2 : SpecBehavior)
    (fuel1 fuel2 : Nat) (spec1 spec2 : BenchmarkSpec) (ab1 ab2 : Bool)
    (r1 r2 : BenchmarkSpec × List Sample × Bool × List Action)
    (h1 : runBenchmarkTask flags env1 fuel1 spec1 false ab1 = some r1)
    (h2 : runBenchmarkTask flags env2 fuel2 spec2 false ab2 = some r2) :
    (1 < flags.run_processes →
      r1.1.config.runUriFlag =
          some (flags.run_uri ++ Nat.repr spec1.sequence_number) ∧
        r2.1.config.runUriFlag =
          some (flags.run_uri ++ Nat.repr spec2.sequence_number) ∧
        (spec1.sequence_number ≠ spec2.sequence_number →
          r1.1.config.runUriFlag ≠ r2.1.config.runUriFlag)) ∧
    (flags.run_processes = 1 → r1.1.config = spec1.config) := by
  have hc1 := runBenchmarkTask_config flags env1 fuel1 spec1 ab1 r1 h1
  have hc2 := runBenchmarkTask_config flags env2 fuel2 spec2 ab2 r2 h2
  constructor
  · intro hp
    rw [effectiveSpec, if_pos hp] at hc1 hc2
    refine ⟨by rw [hc1], by rw [hc2], ?_⟩
    intro hne hcon
    rw [hc1, hc2] at hcon
    exact append_repr_ne flags.run_uri hne (Option.some.inj hcon)
  · intro hp
    rw [effectiveSpec, if_neg (by omega)] at hc1
    exact hc1

/-- The two task results of the C7 two-worker scenario, extracted for the
witness. -/
def c7res1 : BenchmarkSpec × List Sample × Bool × List Action :=
  (runBenchmarkTask flagsTwoProcs envAllOk 2 specSample false false).getD
    (specSample, [], false, [])

def c7res2 : BenchmarkSpec × List Sample × Bool × List Action :=
  (runBenchmarkTask flagsTwoProcs envAllOk 2 specSample2 false false).getD
    (specSample2, [], false, [])

/-- C7 witness: with two worker processes, the two concurrently-runnable
specs end with distinct effective run identifiers. -/
theorem c7_run_uri_suffix_witness :
    c7res1.1.config.runUriFlag ≠ c7res2.1.config.runUriFlag := by
  have h := c7_run_uri_suffix flagsTwoProcs envAllOk envAllOk 2 2
    specSample specSample2 false false c7res1 c7res2 rfl rfl
  exact (h.1 (by decide)).2.2 (by decide)

/-- C6: `RunBenchmarks` returns exit status 0 exactly when every spec of the
batch came back with status `succeeded`, and 1 in every other case. -/
theorem c6_exit_status (flags : Flags) (fuel : Nat)
    (tasks : List (BenchmarkSpec × SpecBehavior × Bool))
    (results : List (BenchmarkSpec × List Sample)) (te : Bool) (e : Nat)
    (h1 : runTasks flags fuel tasks false = some (results, te))
    (h2 : runBenchmarks flags fuel tasks = some (Except.ok e)) :
    ((e = 0 ↔ ∀ p ∈ results, p.1.status = Status.succeeded) ∧
      (e = 0 ∨ e = 1)) := by
  simp only [runBenchmarks] at h2
  rw [h1] at h2
  cases results with
  | nil => simp at h2
  | cons a rs =>
    simp only [Option.some.injEq, Except.ok.injEq] at h2
    by_cases hall : ((a :: rs).all fun p => p.1.status == Status.succeeded) =
        true
    · rw [if_pos hall] at h2
      constructor
      · constructor
        · intro _ p hp
          have hps := List.all_eq_true.mp hall p hp
          simpa using hps
        · intro _
          omega
      · left
        omega
    · rw [if_neg hall] at h2
      constructor
      · constructor
        · intro he
          omega
        · intro hforall
          exact absurd
            (List.all_eq_true.mpr fun p hp => by simpa using hforall p hp)
            hall
      · right
        omega

/-- The C6 scenario: a two-spec batch whose second spec fails during
provisioning. -/
def c6tasks : List (BenchmarkSpec × SpecBehavior × Bool) :=
  [(specSample, envAllOk, false),
   (specSample2, {envAllOk with provision := some (Err.exn 3)}, false)]

def c6results : List (BenchmarkSpec × List Sample) :=
  ((runTasks flagsAllStages 9 c6tasks false).getD ([], false)).1

def c6te : Bool :=
  ((runTasks flagsAllStages 9 c6tasks false).getD ([], false)).2

/-- C6 witness: the batch with one failed spec exits 1, and indeed not all
its returned specs are `succeeded`. -/
theorem c6_exit_status_witness :
    (((1 : Nat) = 0 ↔ ∀ p ∈ c6results, p.1.status = Status.succeeded) ∧
      ((1 : Nat) = 0 ∨ (1 : Nat) = 1)) :=
  c6_exit_status flagsAllStages 9 c6tasks c6results c6te 1 rfl rfl

/-- C8: in the run phase, the per-iteration collector additions are keyed
by consecutive run numbers 0, 1, 2, … (strictly increasing from 0); when
the time-boxed mode is active (`run_stage_time ≠ 0`) every collected sample
of iteration `n` carries the metadata entry `run_number = n`, and in
single-shot mode (`run_stage_time = 0`) every iteration's collected list is
exactly what its `BenchmarkRun` produced (plus boot samples), with no
`run_number` tag attached by the loop. -/
theorem c8_run_number_tags (flags : Flags) (env : SpecBehavior)
    (spec : BenchmarkSpec) (fuel : Nat) (o : RunLoopOut)
    (h : doRunPhase flags env spec fuel = some o) :
    o.perIter.map Prod.fst = List.range o.perIter.length ∧
      (flags.run_stage_time ≠ 0 →
        ∀ p ∈ o.perIter, ∀ s ∈ p.2,
          lookupMeta s.metadata "run_number" = some p.1) ∧
      (flags.run_stage_time = 0 →
        ∀ p ∈ o.perIter,
          p.2 = (match env.run p.1 with
                 | Except.ok s => withBootSamples flags env spec.name s
                 | Except.error _ => [])) := by
  refine ⟨?_, ?_, ?_⟩
  · rw [List.range_eq_range']
    exact doRunLoop_perIter_fst flags env spec.name fuel 0 0 o h
  · intro hT
    exact doRunLoop_tagged flags env spec.name hT fuel 0 0 o h
  · intro hT
    exact doRunLoop_untagged flags env spec.name hT fuel 0 0 o h

/-- The C8 scenario: a three-second time box with an instantly succeeding
`BenchmarkRun` returning one sample per iteration. -/
def c8flags : Flags := {flagsAllStages with run_stage_time := 3}

def c8env : SpecBehavior :=
  {envAllOk with run := fun _ => Except.ok [⟨"latency", 42, "ms", []⟩]}

def c8out : RunLoopOut :=
  (doRunPhase c8flags c8env specSample 9).getD ⟨[], [], 0, Except.ok ()⟩

/-- C8 witness: the time-boxed scenario satisfies all three conjuncts. -/
theorem c8_run_number_tags_witness :
    c8out.perIter.map Prod.fst = List.range c8out.perIter.length ∧
      (c8flags.run_stage_time ≠ 0 →
        ∀ p ∈ c8out.perIter, ∀ s ∈ p.2,
          lookupMeta s.metadata "run_number" = some p.1) ∧
      (c8flags.run_stage_time = 0 →
        ∀ p ∈ c8out.perIter,
          p.2 = (match c8env.run p.1 with
                 | Except.ok s => withBootSamples c8flags c8env
                     specSample.name s
                 | Except.error _ => [])) :=
  c8_run_number_tags c8flags c8env specSample 9 c8out rfl

/-- C10: whenever the pipeline itself terminates — with any outcome,
including a re-raised exception or a KeyboardInterrupt — `RunBenchmarkTask`
returns normally with the pair of the (status-mutated) spec and the
collector's accumulated samples: the `return` inside its `finally` block
swallows every exception, so the process-pool caller can never observe one.
(`none` arises only when the run-phase loop never exits, i.e. the task
itself would not return either.) -/
theorem c10_task_swallows (flags : Flags) (env : SpecBehavior) (fuel : Nat)
    (spec : BenchmarkSpec) (ab : Bool) (r : RBOut)
    (h : runBenchmark flags env (effectiveSpec flags spec) fuel ab =
      some r) :
    runBenchmarkTask flags env fuel spec false ab =
      some (r.spec, r.collected, taskEvent flags false r.result, r.trace)
    := by
  simp only [runBenchmarkTask]
  rw [if_neg (by simp)]
  rw [h]

/-- The pipeline outcome of the interrupted run, extracted for the C10
witness. -/
def c10rb : RBOut :=
  (runBenchmark flagsAllStages envKIRun
    (effectiveSpec flagsAllStages specSample) 3 false).getD
    ⟨specSample, [], [], 0, [], false, Except.ok ()⟩

/-- C10 witness: the pipeline re-raised a KeyboardInterrupt, and the task
still returned the (spec, samples) pair normally. -/
theorem c10_task_swallows_witness :
    c10rb.result = Except.error Err.keyboardInterrupt ∧
      runBenchmarkTask flagsAllStages envKIRun 3 specSample false false =
        some (c10rb.spec, c10rb.collected,
              taskEvent flagsAllStages false c10rb.result, c10rb.trace) :=
  ⟨rfl, c10_task_swallows flagsAllStages envKIRun 3 specSample false
    c10rb rfl⟩

/-- Flags for the C1 counterexample: retry budget 1, single-shot mode. -/
def c1flags : Flags := {flagsAllStages with run_stage_retries := 1}

/-- Behaviour for the C1 counterexample: `BenchmarkRun` fails on its first
invocation and succeeds from the second on; one second elapses per
iteration. -/
def c1env : SpecBehavior :=
  {envAllOk with
     run := fun n => if n = 0 then Except.error (Err.exn 7)
                     else Except.ok []}

/-- C1 counterexample: retry budget R = 1; Run fails on its first R
invocations and would succeed on the next; with `run_stage_time = 0` the
deadline (the start time) has already passed when the first — failed but
within-budget — iteration ends, so the loop breaks instead of retrying:
the run phase completes without raising after exactly 1 invocation of Run,
not R + 1 = 2, and the spec still ends `succeeded`.  This refutes the
claim's "exactly R+1 invocations … for every configured duration, including
run_stage_time = 0". -/
theorem c1_counterexample :
    (runBenchmark c1flags c1env specSample 5 false).map
      (fun r => (r.invocations, r.result.isOk, r.spec.status)) =
      some (1, true, Status.succeeded) := rfl

/-- C1 amended: with retry budget R (`run_stage_retries = R`), a
`BenchmarkRun` that raises ordinary exceptions on its first R invocations —
each of those iterations ending at or before the deadline, so the loop
actually retries — and every other stage operation succeeding:
(a) if invocation R (zero-based) succeeds and the deadline has passed by the
end of that iteration, the run phase returns normally after exactly R+1
invocations and the spec ends `succeeded`;
(b) if invocation R raises an ordinary exception too (the (R+1)-st
consecutive failure), `DoRunPhase` re-raises that failure after exactly R+1
invocations, the spec ends `failed`, and the finally-block teardown still
executes exactly when teardown was requested and the abort-module flag is
unset.  (The original claim — unconditional in the configured duration — is
refuted by `c1_counterexample`.) -/
theorem c1_run_retry (flags : Flags) (env : SpecBehavior)
    (spec : BenchmarkSpec) (fuel : Nat) (ab : Bool) (R : Nat)
    (hR : flags.run_stage_retries = R)
    (hfuel : R < fuel)
    (hrunStage : Stage.run ∈ flags.run_stage)
    (hok : nonRunStagesOk env)
    (hfail : ∀ n, n < R → ∃ id, env.run n = Except.error (Err.exn id))
    (hclock : ∀ n, n < R →
      env.clock n ≤ env.startTime + flags.run_stage_time) :
    ((∃ s, env.run R = Except.ok s) →
      env.startTime + flags.run_stage_time < env.clock R →
      ∃ r : RBOut, runBenchmark flags env spec fuel ab = some r ∧
        r.invocations = R + 1 ∧ r.result = Except.ok () ∧
        r.spec.status = Status.succeeded ∧
        (r.finallyDelete = true ↔
          (Stage.teardown ∈ flags.run_stage ∧ ab = false))) ∧
    (∀ id : Nat, env.run R = Except.error (Err.exn id) →
      ∃ r : RBOut, runBenchmark flags env spec fuel ab = some r ∧
        r.invocations = R + 1 ∧ r.result = Except.error (Err.exn id) ∧
        r.spec.status = Status.failed ∧
        (r.finallyDelete = true ↔
          (Stage.teardown ∈ flags.run_stage ∧ ab = false))) := by
  obtain ⟨m, rfl⟩ : ∃ m, fuel = (m + 1) + R := ⟨fuel - R - 1, by omega⟩
  have hshift := doRunLoop_fail_shift flags env spec.name R (m + 1) 0 0
    (fun i hi => by rw [Nat.zero_add]; exact hfail i hi)
    (fun i hi => by omega)
    (fun i hi => by rw [Nat.zero_add]; exact hclock i hi)
  rw [Nat.zero_add] at hshift
  obtain ⟨h1, h2, h3, h4, h5, h6, h7, h8, h9, h10⟩ := hok
  constructor
  · rintro ⟨s, hs⟩ hcl
    have hstep := doRunLoop_step_ok flags env spec.name m R R s hs
    rw [if_pos hcl] at hstep
    have hro : doRunPhase flags env {spec with status := Status.failed}
        ((m + 1) + R) =
        some ⟨((List.range' 0 R).map fun n => iterActs flags n []).flatten ++
                iterActs flags R
                  (tagRunNumber flags R (withBootSamples flags env spec.name
                    s)),
              ((List.range' 0 R).map fun n => (n, ([] : List Sample))) ++
                [(R, tagRunNumber flags R (withBootSamples flags env
                  spec.name s))],
              1 + R, Except.ok ()⟩ := by
      show doRunLoop flags env spec.name ((m + 1) + R) 0 0 = _
      rw [hshift, hstep]
      rfl
    obtain ⟨t, ht, htres, htinv, _⟩ := runStagesTry_of_run flags env
      {spec with status := Status.failed} ((m + 1) + R) _
      ⟨h1, h2, h3, h4, h5, h6, h7, h8, h9, h10⟩ hrunStage hro
    obtain ⟨r, hr, hrres, hrinv, _, hrstat, hrdel⟩ :=
      runBenchmark_of_try flags env spec ((m + 1) + R) ab t h8 h9 h10 ht
    refine ⟨r, hr, ?_, ?_, ?_, hrdel⟩
    · rw [hrinv, htinv]
      show 1 + R = R + 1
      omega
    · rw [hrres, htres]
    · rw [hrstat, htres]
  · intro id hid
    have hstep := doRunLoop_fatal flags env spec.name m R R (Err.exn id) hid
      (Or.inr (by omega))
    have hro : doRunPhase flags env {spec with status := Status.failed}
        ((m + 1) + R) =
        some ⟨((List.range' 0 R).map fun n => iterActs flags n []).flatten ++
                [Action.beforeRunPhase, Action.benchmarkRunCall R,
                 Action.afterRunPhase],
              ((List.range' 0 R).map fun n => (n, ([] : List Sample))) ++ [],
              1 + R, Except.error (Err.exn id)⟩ := by
      show doRunLoop flags env spec.name ((m + 1) + R) 0 0 = _
      rw [hshift, hstep]
      rfl
    obtain ⟨t, ht, htres, htinv, _⟩ := runStagesTry_of_run flags env
      {spec with status := Status.failed} ((m + 1) + R) _
      ⟨h1, h2, h3, h4, h5, h6, h7, h8, h9, h10⟩ hrunStage hro
    obtain ⟨r, hr, hrres, hrinv, _, hrstat, hrdel⟩ :=
      runBenchmark_of_try flags env spec ((m + 1) + R) ab t h8 h9 h10 ht
    refine ⟨r, hr, ?_, ?_, ?_, hrdel⟩
    · rw [hrinv, htinv]
      show 1 + R = R + 1
      omega
    · rw [hrres, htres]
    · rw [hrstat, htres]

/-- Flags for the C1 witness scenario: retry budget 1 and a five-second
time box. -/
def c1wflags : Flags :=
  {flagsAllStages with run_stage_retries := 1, run_stage_time := 5}

/-- Behaviour for the C1 witness scenario: the first `BenchmarkRun` raises,
the second succeeds; the first iteration ends one second in (before the
deadline), the second ten seconds in (after it). -/
def c1wenv : SpecBehavior :=
  {envAllOk with
     run := fun n => if n = 0 then Except.error (Err.exn 7)
                     else Except.ok [],
     clock := fun n => if n = 0 then 1 else 10}

/-- C1 witness: branch (a) of the amended claim at the witness scenario —
failure, retry, success, exactly two invocations, spec `succeeded`. -/
theorem c1_run_retry_witness :
    ∃ r : RBOut, runBenchmark c1wflags c1wenv specSample 9 false = some r ∧
      r.invocations = 1 + 1 ∧ r.result = Except.ok () ∧
      r.spec.status = Status.succeeded ∧
      (r.finallyDelete = true ↔
        (Stage.teardown ∈ c1wflags.run_stage ∧ false = false)) := by
  have h := c1_run_retry c1wflags c1wenv specSample 9 false 1 rfl
    (by omega) (by decide)
    ⟨rfl, rfl, rfl, rfl, rfl, rfl, rfl, fun _ => rfl, fun _ => rfl,
     fun _ => rfl⟩
    (fun n hn => by interval_cases n; exact ⟨7, rfl⟩)
    (fun n hn => by interval_cases n; decide)
  exact h.1 ⟨[], rfl⟩ (by decide)

end Pkb
